import Mathlib

/-!
Verification of the `python-function-composition` repository.

The repository implements one HTTP endpoint three ways:
  * `step_1.py` : a single inline function `get_people`;
  * `step_2.py` : the same code decomposed into `create_filepath`,
    `read_lines`, `parse_dicts`, `convert_to_contacts`;
  * `step_3.py` : the same four stages wrapped in a `composable` class and
    chained with the `|` operator.

This file is a shallow embedding of that code:

  * Python runtime values that flow through the `composable` machinery are
    modelled by the inductive type `PyVal`.  Zero-argument callables (the only
    callables the forcing rule in `composable.__ror__` ever invokes) are
    modelled by the `thunk` constructor.  A pydantic `Contact` object is the
    opaque constructor `PyVal.contact`.
  * Python exceptions are modelled with `Except Err`; each raise site of the
    program corresponds to one `Err` constructor
    (`FileNotFoundError`/`OSError` from `open`, `json.JSONDecodeError` from
    `json.loads`, pydantic's `ValidationError`, and `TypeError` from calling
    `Contact(**rec)` on a non-mapping / non-string-keyed mapping).
  * The file system is a function from paths to a read outcome, so the
    behaviour of `open(...).read()` on an arbitrary file-system state can be
    quantified over.
  * `json.loads` (stdlib, external to the repository) is modelled by an
    executable recursive-descent parser `json_loads` for the JSON fragment the
    program's data files use: null/true/false, integers, strings with the
    single-character escapes, arrays and objects, with the standard JSON
    whitespace.  Floats, `\u` escapes and the rejection of unescaped control
    characters are outside the modelled fragment; every theorem below that
    quantifies over lines states its hypotheses in terms of `json_loads`
    outcomes, so nothing is claimed about inputs outside the fragment.
    `JSONDecodeError.pos` is modelled as the index of the first character the
    parser could not consume.
  * Python `buf.split("\n")` and the `l.strip()` truthiness test are modelled
    by the executable `split_nl` and `isBlank` below (Lean's own
    `String.splitOn`/`String.trim` are avoided because they do not reduce
    definitionally).

Definitions keep the source's names; `_c` marks the `composable`-wrapped
stage objects of `step_3.py`, and the three endpoint variants are
`step1_get_people`, `step2_get_people`, `step3_get_people`.
-/

/-- A Python runtime value, as far as this program manipulates them.
`thunk` models a zero-argument callable (the only callables that
`composable.__ror__`'s forcing rule can invoke); `contact` models a pydantic
`Contact` instance with its two fields. -/
inductive PyVal : Type where
  | nonev : PyVal
  | bool (b : Bool) : PyVal
  | int (n : Int) : PyVal
  | str (s : String) : PyVal
  | list (xs : List PyVal) : PyVal
  | tuple (xs : List PyVal) : PyVal
  | dict (kvs : List (PyVal × PyVal)) : PyVal
  | contact (name job : String) : PyVal
  | thunk (f : Unit → PyVal) : PyVal

/-- Python's `callable(v)` restricted to the values of this model: only
thunks are callable. -/
def pyCallable : PyVal → Bool
  | .thunk _ => true
  | _ => false

/-- True for a Python `str` value. -/
def PyVal.isStr : PyVal → Bool
  | .str _ => true
  | _ => false

/-- The pydantic model `Contact(BaseModel)` with fields `name: str` and
`job: str`, identical in all three source files. -/
structure Contact where
  name : String
  job : String
deriving DecidableEq

/-- The exception kinds the program can raise.  `parseError` is
`json.JSONDecodeError` (carrying the offending document line and the
character position); `validationError` is pydantic's `ValidationError`
(carrying the offending record and the names of the missing or mistyped
fields); `typeError` is Python's `TypeError` (raised e.g. by
`Contact(**rec)` when `rec` is not a mapping). -/
inductive Err : Type where
  | notFound (path : String) : Err
  | ioError (path : String) : Err
  | parseError (line : String) (pos : Nat) : Err
  | validationError (record : PyVal) (fields : List String) : Err
  | typeError (msg : String) : Err

/-- Outcome of `open(path).read()` on one path: the file's full contents, a
`FileNotFoundError`, or another `OSError`. -/
inductive ReadResult : Type where
  | ok (content : String) : ReadResult
  | notFound : ReadResult
  | ioFail : ReadResult

/-- A file-system state: what reading each path yields. -/
def FS : Type := String → ReadResult

/-- A Python list comprehension `[f x for x in xs]` where `f` may raise:
the first raise aborts the whole comprehension. -/
def mapExcept (f : α → Except ε β) : List α → Except ε (List β)
  | [] => .ok []
  | a :: as => do
    let b ← f a
    let bs ← mapExcept f as
    .ok (b :: bs)

/-- ASCII whitespace as recognised by Python's `str.strip()` /
`str.isspace()`. -/
def isSpaceChar (c : Char) : Bool :=
  c = ' ' ∨ c = '\t' ∨ c = '\n' ∨ c = '\r' ∨ c = '\x0b' ∨ c = '\x0c'

/-- Python's `buf.split("\n")` on the character list: every maximal segment
between newline characters, including empty ones. -/
def splitNlChars : List Char → List (List Char)
  | [] => [[]]
  | c :: cs =>
    if c = '\n' then [] :: splitNlChars cs
    else
      match splitNlChars cs with
      | [] => [[c]]
      | l :: ls => (c :: l) :: ls

/-- Python's `buf.split("\n")`. -/
def split_nl (s : String) : List String := (splitNlChars s.data).map String.mk

/-- The `l.strip()` truthiness test of the list comprehension in
`read_lines`: a line is blank iff it is empty or all-whitespace, i.e. iff
`l.strip()` is falsy. -/
def isBlank (l : String) : Bool := l.data.all isSpaceChar

/-! ## Model of `json.loads` (Python stdlib, external to the repository)

A recursive-descent parser on the character list.  All parsing functions
return the parsed value and the unconsumed rest, or the length of the rest
of the input at the first character they could not consume (which
`json_loads` converts into a character position, modelling
`JSONDecodeError.pos`).  The `fuel` argument makes the nested recursion
structural; `json_loads` supplies `length + 1` fuel, which is enough because
every nesting level consumes at least one character. -/

/-- JSON insignificant whitespace (space, tab, line feed, carriage return). -/
def skipWs : List Char → List Char
  | [] => []
  | c :: cs => if c = ' ' ∨ c = '\t' ∨ c = '\n' ∨ c = '\r' then skipWs cs else c :: cs

/-- JSON single-character string escapes. -/
def escChar : Char → Option Char
  | '"' => Option.some '"'
  | '\\' => Option.some '\\'
  | '/' => Option.some '/'
  | 'n' => Option.some '\n'
  | 't' => Option.some '\t'
  | 'r' => Option.some '\r'
  | 'b' => Option.some (Char.ofNat 8)
  | 'f' => Option.some (Char.ofNat 12)
  | _ => Option.none

/-- Body of a JSON string after the opening quote, up to and including the
closing quote. -/
def parseStringChars : List Char → Except Nat (List Char × List Char)
  | [] => .error 0
  | '"' :: cs => .ok ([], cs)
  | '\\' :: e :: cs =>
    (match escChar e with
     | Option.some ec => (parseStringChars cs).map (fun p => (ec :: p.1, p.2))
     | Option.none => .error (e :: cs).length)
  | c :: cs => (parseStringChars cs).map (fun p => (c :: p.1, p.2))

/-- Consume a maximal run of decimal digits. -/
def digitsAux : Nat → List Char → Nat × List Char
  | acc, [] => (acc, [])
  | acc, c :: cs => if c.isDigit then digitsAux (acc * 10 + (c.toNat - 48)) cs else (acc, c :: cs)

/-- A JSON number of the modelled fragment: an optionally negated integer. -/
def parseNumber : List Char → Except Nat (PyVal × List Char)
  | '-' :: c :: rest =>
    if c.isDigit then
      (let p := digitsAux 0 (c :: rest); .ok (PyVal.int (-(Int.ofNat p.1)), p.2))
    else .error (c :: rest).length
  | '-' :: [] => .error 0
  | c :: rest =>
    if c.isDigit then
      (let p := digitsAux 0 (c :: rest); .ok (PyVal.int (Int.ofNat p.1), p.2))
    else .error (c :: rest).length
  | [] => .error 0

/-- Match an exact literal continuation such as `ull` of `null`. -/
def expectLit : List Char → List Char → Except Nat (List Char)
  | [], cs => .ok cs
  | _ :: _, [] => .error 0
  | e :: es, c :: cs => if c = e then expectLit es cs else .error (c :: cs).length

/-- Comma-separated array elements after `[`, up to and including `]`
(the empty array is handled by the caller). -/
def parseElems (pv : List Char → Except Nat (PyVal × List Char)) :
    Nat → List Char → Except Nat (List PyVal × List Char)
  | 0, cs => .error cs.length
  | fuel + 1, cs =>
    match pv cs with
    | .error p => .error p
    | .ok (v, r1) =>
      match skipWs r1 with
      | ',' :: r2 =>
        (match parseElems pv fuel r2 with
         | .error p => .error p
         | .ok (vs, r3) => .ok (v :: vs, r3))
      | ']' :: r2 => .ok ([v], r2)
      | r => .error r.length

/-- Comma-separated `"key": value` object members, up to and including the
closing brace (the empty object is handled by the caller).  Keys become
`PyVal.str` dictionary keys, as `json.loads` produces `str`-keyed dicts. -/
def parseMembers (pv : List Char → Except Nat (PyVal × List Char)) :
    Nat → List Char → Except Nat (List (PyVal × PyVal) × List Char)
  | 0, cs => .error cs.length
  | fuel + 1, cs =>
    match skipWs cs with
    | '"' :: r1 =>
      (match parseStringChars r1 with
       | .error p => .error p
       | .ok (kchars, r2) =>
         match skipWs r2 with
         | ':' :: r3 =>
           (match pv r3 with
            | .error p => .error p
            | .ok (v, r4) =>
              match skipWs r4 with
              | ',' :: r5 =>
                (match parseMembers pv fuel r5 with
                 | .error p => .error p
                 | .ok (kvs, r6) => .ok ((PyVal.str (String.mk kchars), v) :: kvs, r6))
              | '\x7d' :: r5 => .ok ([(PyVal.str (String.mk kchars), v)], r5)
              | r => .error r.length)
         | r => .error r.length)
    | r => .error r.length

/-- One JSON value with leading whitespace. -/
def parseValue : Nat → List Char → Except Nat (PyVal × List Char)
  | 0, cs => .error cs.length
  | fuel + 1, cs =>
    match skipWs cs with
    | [] => .error 0
    | 'n' :: rest => (expectLit ['u', 'l', 'l'] rest).map (fun r => (PyVal.nonev, r))
    | 't' :: rest => (expectLit ['r', 'u', 'e'] rest).map (fun r => (PyVal.bool true, r))
    | 'f' :: rest => (expectLit ['a', 'l', 's', 'e'] rest).map (fun r => (PyVal.bool false, r))
    | '"' :: rest => (parseStringChars rest).map (fun p => (PyVal.str (String.mk p.1), p.2))
    | '\x7b' :: rest =>
      (match skipWs rest with
       | '\x7d' :: r2 => Except.ok (PyVal.dict [], r2)
       | r =>
         match parseMembers (fun cs2 => parseValue fuel cs2) fuel r with
         | .error p => .error p
         | .ok (kvs, r2) => .ok (PyVal.dict kvs, r2))
    | '[' :: rest =>
      (match skipWs rest with
       | ']' :: r2 => Except.ok (PyVal.list [], r2)
       | r =>
         match parseElems (fun cs2 => parseValue fuel cs2) fuel r with
         | .error p => .error p
         | .ok (vs, r2) => .ok (PyVal.list vs, r2))
    | c :: rest =>
      if c = '-' ∨ c.isDigit then parseNumber (c :: rest) else .error (c :: rest).length

/-- Model of `json.loads(s)`: parse one JSON document with optional trailing
whitespace; on failure report the position of the first unconsumed
character, as `JSONDecodeError.pos` does. -/
def json_loads (s : String) : Except Nat PyVal :=
  match parseValue (s.length + 1) s.data with
  | .ok (v, rest) =>
    (match skipWs rest with
     | [] => .ok v
     | r => .error (s.length - r.length))
  | .error rem => .error (s.length - rem)

/-! ## The four pipeline stages (`step_2.py`; `step_1.py` inlines the same
code, `step_3.py` wraps it in `composable`) -/

/-- `create_filepath` (step 1 of the pipeline):
`Path(__file__).parents[0] / '..' / 'data_files' / f"{area}.txt"`.
Paths are modelled as strings and `/` as string concatenation; the constant
prefix stands for the source directory holding the script. -/
def create_filepath (area : String) : String :=
  "src/../data_files/" ++ area ++ ".txt"

/-- `read_lines` (step 2 of the pipeline): read the whole file, split on
newlines and keep the lines whose `strip()` is truthy.  A missing file is a
`FileNotFoundError`, any other read failure an `OSError`; neither is caught. -/
def read_lines (fs : FS) (file_path : String) : Except Err (List String) :=
  match fs file_path with
  | .ok buf => .ok ((split_nl buf).filter (fun l => !(isBlank l)))
  | .notFound => .error (.notFound file_path)
  | .ioFail => .error (.ioError file_path)

/-- `parse_dicts` (step 3 of the pipeline):
`[json.loads(line) for line in lines]`. -/
def parse_dicts (lines : List String) : Except Err (List PyVal) :=
  mapExcept (fun line => (json_loads line).mapError (fun pos => Err.parseError line pos)) lines

/-- Last-binding lookup of a string key in a dict's association list,
following Python/JSON duplicate-key semantics (the last occurrence wins). -/
def lookupLast (kvs : List (PyVal × PyVal)) (key : String) : Option PyVal :=
  match kvs with
  | [] => Option.none
  | (k, v) :: rest =>
    match lookupLast rest key with
    | Option.some w => Option.some w
    | Option.none =>
      match k with
      | .str s => if s = key then Option.some v else Option.none
      | _ => Option.none

/-- The value of a required `str` field of a record: `some` exactly when the
key is present and its value is a string. -/
def strField (kvs : List (PyVal × PyVal)) (field : String) : Option String :=
  match lookupLast kvs field with
  | Option.some (.str s) => Option.some s
  | _ => Option.none

/-- The names of the `Contact` fields a record is missing or holds a
non-string value in, in declaration order, as pydantic's `ValidationError`
reports them. -/
def badFieldsOf (kvs : List (PyVal × PyVal)) : List String :=
  (if (strField kvs "name").isSome then [] else ["name"]) ++
    (if (strField kvs "job").isSome then [] else ["job"])

/-- `Contact(**record)`: Python raises `TypeError` if `record` is not a
mapping or has non-string keys; otherwise pydantic validates that `name` and
`job` are present string values (extra keys are ignored) and constructs the
model, raising `ValidationError` naming the offending fields otherwise. -/
def contact_of_pyval (record : PyVal) : Except Err Contact :=
  match record with
  | .dict kvs =>
    if kvs.all (fun kv => kv.1.isStr) then
      match strField kvs "name", strField kvs "job" with
      | Option.some n, Option.some j => .ok ⟨n, j⟩
      | _, _ => .error (.validationError record (badFieldsOf kvs))
    else .error (.typeError "keywords must be strings")
  | _ => .error (.typeError "argument after a double star must be a mapping")

/-- `convert_to_contacts` (step 4 of the pipeline):
`[Contact(**rec) for rec in dicts]`. -/
def convert_to_contacts (dicts : List PyVal) : Except Err (List Contact) :=
  mapExcept contact_of_pyval dicts

/-- `get_people` of `step_1.py`: the four stages written inline in one
function body, exactly as in the source. -/
def step1_get_people (fs : FS) (area : String) : Except Err (List Contact) :=
  let full_filename := "src/../data_files/" ++ area ++ ".txt"
  (match fs full_filename with
   | .ok buf => Except.ok ((split_nl buf).filter (fun l => !(isBlank l)))
   | .notFound => Except.error (Err.notFound full_filename)
   | .ioFail => Except.error (Err.ioError full_filename)) >>= fun lines =>
  mapExcept (fun line => (json_loads line).mapError (fun pos => Err.parseError line pos))
      lines >>= fun json_recs =>
  mapExcept contact_of_pyval json_recs

/-- `get_people` of `step_2.py`:
`convert_to_contacts(parse_dicts(read_lines(create_filepath(area))))`. -/
def step2_get_people (fs : FS) (area : String) : Except Err (List Contact) :=
  read_lines fs (create_filepath area) >>= fun lines =>
  parse_dicts lines >>= fun dicts =>
  convert_to_contacts dicts

/-! ## The `composable` chaining construct of `step_3.py` -/

/-- The `composable` wrapper class of `step_3.py`: it holds the wrapped
unary function.  Raising Python functions are modelled as `Except`-valued
functions on `PyVal`. -/
structure composable where
  func : PyVal → Except Err PyVal

/-- `composable.__call__(self, *args)` at the one arity the program uses:
`self.func(args)`. -/
def composable.call (c : composable) (v : PyVal) : Except Err PyVal := c.func v

/-- The element forcing of `composable.__ror__`:
`i() if callable(i) else i`. -/
def forceItem : PyVal → PyVal
  | .thunk f => f ()
  | v => v

/-- `composable.__ror__(self, other)`: if `other` is a list or tuple it is
rebuilt as a list with every callable element invoked; if it (still) is a
dict, every callable value (not key) is invoked; then `self.func` is applied
to the result.  The two `isinstance` tests of the source are the two nested
matches (a forced list can never take the dict branch, as in the source). -/
def composable.ror (c : composable) (other : PyVal) : Except Err PyVal :=
  c.func
    (match
      (match other with
       | .list xs => PyVal.list (xs.map forceItem)
       | .tuple xs => PyVal.list (xs.map forceItem)
       | v => v) with
     | .dict kvs => PyVal.dict (kvs.map (fun kv => (kv.1, forceItem kv.2)))
     | v => v)

/-- The right operand of `composable.__or__`: either something callable
(another `composable` or any function — `callable(other)` is true), given by
its one-argument call behaviour, or a non-callable plain value. -/
inductive PyOperand : Type where
  | fn (g : PyVal → Except Err PyVal) : PyOperand
  | val (v : PyVal) : PyOperand

/-- `composable.__or__(self, other)`: for callable `other`,
`composable(lambda value: other(self.func(value)))` — the `>>=` is Python's
exception propagation out of `self.func(value)`; for non-callable `other`,
`composable(lambda x: self.func(other))`. -/
def composable.orOp (c : composable) : PyOperand → composable
  | .fn g => ⟨fun value => c.func value >>= g⟩
  | .val other => ⟨fun _x => c.func other⟩

/-- The encoding of a list of pydantic `Contact` objects as the Python value
`step_3.py`'s chain returns. -/
def pyOfContacts (cs : List Contact) : PyVal :=
  PyVal.list (cs.map (fun c => PyVal.contact c.name c.job))

/-- The `@composable`-decorated `create_filepath` of `step_3.py`.  The
endpoint only ever pipes the `str` path parameter into it; other `PyVal`
shapes do not occur in the program and are modelled as a `TypeError`. -/
def create_filepath_c : composable :=
  ⟨fun v =>
    match v with
    | .str area => .ok (.str (create_filepath area))
    | _ => .error (.typeError "create_filepath expects a str")⟩

/-- The `@composable`-decorated `read_lines` of `step_3.py`; it only ever
receives the `str` path produced by `create_filepath`. -/
def read_lines_c (fs : FS) : composable :=
  ⟨fun v =>
    match v with
    | .str path => (read_lines fs path).map (fun ls => PyVal.list (ls.map PyVal.str))
    | _ => .error (.typeError "read_lines expects a path")⟩

/-- The `@composable`-decorated `parse_dicts` of `step_3.py`; it only ever
receives the list of line strings produced by `read_lines`.  `json.loads`
raises `TypeError` on a non-string element. -/
def parse_dicts_c : composable :=
  ⟨fun v =>
    match v with
    | .list xs =>
      (mapExcept
        (fun x =>
          match x with
          | PyVal.str line => (json_loads line).mapError (fun pos => Err.parseError line pos)
          | _ => .error (.typeError "the JSON object must be str"))
        xs).map PyVal.list
    | _ => .error (.typeError "parse_dicts expects a list")⟩

/-- The `@composable`-decorated `convert_to_contacts` of `step_3.py`; it
only ever receives the list of parsed records produced by `parse_dicts`. -/
def convert_to_contacts_c : composable :=
  ⟨fun v =>
    match v with
    | .list xs => (convert_to_contacts xs).map pyOfContacts
    | _ => .error (.typeError "convert_to_contacts expects a list")⟩

/-- `get_people` of `step_3.py`:
`area | create_filepath | read_lines | parse_dicts | convert_to_contacts`.
The `|` operators evaluate left to right; each one fires
`composable.__ror__` on the value produced so far (none of the intermediate
values is a `composable`, so the reflected operator is always the one
called), and an exception anywhere aborts the chain. -/
def step3_get_people (fs : FS) (area : String) : Except Err PyVal :=
  create_filepath_c.ror (.str area) >>= fun v1 =>
  (read_lines_c fs).ror v1 >>= fun v2 =>
  parse_dicts_c.ror v2 >>= fun v3 =>
  convert_to_contacts_c.ror v3

/-- A whole line's processing: parse it, then validate it, with the error of
the stage that raised.  Used to state specifications of the end-to-end
pipeline. -/
def lineContact (line : String) : Except Err Contact :=
  (json_loads line).mapError (fun pos => Err.parseError line pos) >>= contact_of_pyval

/-- The container shapes `composable.__ror__` treats specially: Python
`list`, `tuple` and `dict` (the two `isinstance` tests of the source). -/
def isPyContainer : PyVal → Bool
  | .list _ => true
  | .tuple _ => true
  | .dict _ => true
  | _ => false

/-! ## General lemmas about the `Except` model and comprehensions -/

theorem ok_bind (a : α) (f : α → Except ε β) : (Except.ok a >>= f) = f a := rfl

theorem error_bind (e : ε) (f : α → Except ε β) :
    ((Except.error e : Except ε α) >>= f) = Except.error e := rfl

theorem map_ok (a : α) (f : α → β) : (Except.ok a : Except ε α).map f = Except.ok (f a) := rfl

theorem map_error (e : ε) (f : α → β) :
    (Except.error e : Except ε α).map f = Except.error e := rfl

theorem except_map_ok_elim {e : Except ε α} {f : α → β} {b : β}
    (h : e.map f = .ok b) : ∃ a, e = .ok a ∧ f a = b := by
  cases e with
  | ok a => exact ⟨a, rfl, by simpa [Except.map] using h⟩
  | error p => simp [Except.map] at h

theorem except_mapError_ok_elim {e : Except ε α} {f : ε → ε'} {a : α}
    (h : e.mapError f = .ok a) : e = .ok a := by
  cases e with
  | ok b => simpa [Except.mapError] using h
  | error p => simp [Except.mapError] at h

theorem mapExcept_ok_length {f : α → Except ε β} :
    ∀ {l : List α} {bs : List β}, mapExcept f l = .ok bs → bs.length = l.length := by
  intro l
  induction l with
  | nil => intro bs h; simp [mapExcept] at h; simp [h.symm]
  | cons a as ih =>
    intro bs h
    simp only [mapExcept] at h
    cases hfa : f a with
    | error e => rw [hfa] at h; simp [error_bind] at h
    | ok b =>
      rw [hfa] at h
      rw [ok_bind] at h
      cases hrest : mapExcept f as with
      | error e => rw [hrest] at h; simp [error_bind] at h
      | ok bs' =>
        rw [hrest] at h
        rw [ok_bind] at h
        cases h
        simp [ih hrest]

theorem mapExcept_ok_forall₂ {f : α → Except ε β} :
    ∀ {l : List α} {bs : List β}, mapExcept f l = .ok bs →
      List.Forall₂ (fun a b => f a = .ok b) l bs := by
  intro l
  induction l with
  | nil => intro bs h; simp [mapExcept] at h; simp [h.symm]
  | cons a as ih =>
    intro bs h
    simp only [mapExcept] at h
    cases hfa : f a with
    | error e => rw [hfa] at h; simp [error_bind] at h
    | ok b =>
      rw [hfa] at h
      rw [ok_bind] at h
      cases hrest : mapExcept f as with
      | error e => rw [hrest] at h; simp [error_bind] at h
      | ok bs' =>
        rw [hrest] at h
        rw [ok_bind] at h
        cases h
        exact List.Forall₂.cons hfa (ih hrest)

theorem mapExcept_ok_mem {f : α → Except ε β} {l : List α} {bs : List β}
    (h : mapExcept f l = .ok bs) : ∀ a ∈ l, ∃ b, f a = .ok b := by
  induction l generalizing bs with
  | nil => intro a ha; exact absurd ha (List.not_mem_nil a)
  | cons a0 as ih =>
    intro a ha
    simp only [mapExcept] at h
    cases hfa : f a0 with
    | error e => rw [hfa] at h; simp [error_bind] at h
    | ok b =>
      rw [hfa, ok_bind] at h
      cases hrest : mapExcept f as with
      | error e => rw [hrest] at h; simp [error_bind] at h
      | ok bs' =>
        rcases List.mem_cons.mp ha with rfl | hmem
        · exact ⟨b, hfa⟩
        · exact ih hrest a hmem

theorem mapExcept_append_error {f : α → Except ε β} {bad : α} {e : ε}
    (post : List α) (hbad : f bad = .error e) :
    ∀ (pre : List α), (∀ a ∈ pre, ∃ b, f a = .ok b) →
      mapExcept f (pre ++ bad :: post) = .error e := by
  intro pre
  induction pre with
  | nil =>
    intro _
    simp only [List.nil_append, mapExcept]
    rw [hbad]
    rfl
  | cons a as ih =>
    intro hpre
    obtain ⟨b, hb⟩ := hpre a (List.mem_cons_self a as)
    have ht : mapExcept f ((a :: as) ++ bad :: post) =
        (f a >>= fun b => mapExcept f (as ++ bad :: post) >>= fun bs => .ok (b :: bs)) := rfl
    rw [ht, hb, ok_bind, ih (fun x hx => hpre x (List.mem_cons_of_mem a hx)), error_bind]

theorem mapExcept_all_ok {f : α → Except ε β} :
    ∀ (l : List α), (∀ a ∈ l, ∃ b, f a = .ok b) → ∃ bs, mapExcept f l = .ok bs := by
  intro l
  induction l with
  | nil => exact fun _ => ⟨[], rfl⟩
  | cons a as ih =>
    intro hall
    obtain ⟨b, hb⟩ := hall a (List.mem_cons_self a as)
    obtain ⟨bs, hbs⟩ := ih (fun x hx => hall x (List.mem_cons_of_mem a hx))
    refine ⟨b :: bs, ?_⟩
    simp only [mapExcept]
    rw [hb, ok_bind, hbs, ok_bind]

/-! ## The values produced by `json_loads` are never callables -/

theorem parseNumber_forceItem {cs : List Char} {v : PyVal} {r : List Char}
    (h : parseNumber cs = .ok (v, r)) : forceItem v = v := by
  unfold parseNumber at h
  split at h <;> (try split at h) <;>
    first
      | (simp only [Except.ok.injEq, Prod.mk.injEq] at h
         obtain ⟨h1, h2⟩ := h
         subst h1
         rfl)
      | simp at h

theorem parseValue_forceItem :
    ∀ (fuel : Nat) (cs : List Char) (v : PyVal) (r : List Char),
      parseValue fuel cs = .ok (v, r) → forceItem v = v := by
  intro fuel cs v r h
  match fuel with
  | 0 => simp [parseValue] at h
  | fuel + 1 =>
    rw [parseValue] at h
    split at h
    · simp at h
    · obtain ⟨a, -, hf⟩ := except_map_ok_elim h
      injection hf with h1 h2
      subst h1
      rfl
    · obtain ⟨a, -, hf⟩ := except_map_ok_elim h
      injection hf with h1 h2
      subst h1
      rfl
    · obtain ⟨a, -, hf⟩ := except_map_ok_elim h
      injection hf with h1 h2
      subst h1
      rfl
    · obtain ⟨a, -, hf⟩ := except_map_ok_elim h
      injection hf with h1 h2
      subst h1
      rfl
    · split at h
      · simp only [Except.ok.injEq, Prod.mk.injEq] at h
        obtain ⟨h1, h2⟩ := h
        subst h1
        rfl
      · split at h
        · simp at h
        · simp only [Except.ok.injEq, Prod.mk.injEq] at h
          obtain ⟨h1, h2⟩ := h
          subst h1
          rfl
    · split at h
      · simp only [Except.ok.injEq, Prod.mk.injEq] at h
        obtain ⟨h1, h2⟩ := h
        subst h1
        rfl
      · split at h
        · simp at h
        · simp only [Except.ok.injEq, Prod.mk.injEq] at h
          obtain ⟨h1, h2⟩ := h
          subst h1
          rfl
    · split at h
      · exact parseNumber_forceItem h
      · simp at h

theorem json_loads_forceItem {s : String} {v : PyVal} (h : json_loads s = .ok v) :
    forceItem v = v := by
  unfold json_loads at h
  split at h
  · rename_i v0 rest heq
    split at h
    · cases h
      exact parseValue_forceItem _ _ _ _ heq
    · simp at h
  · simp at h

theorem parse_dicts_ok_forceItem :
    ∀ (ls : List String) (rs : List PyVal), parse_dicts ls = .ok rs →
      ∀ r ∈ rs, forceItem r = r := by
  intro ls
  induction ls with
  | nil =>
    intro rs h r hr
    simp [parse_dicts, mapExcept] at h
    subst h
    exact absurd hr (List.not_mem_nil r)
  | cons l ls ih =>
    intro rs h r hr
    rw [show parse_dicts (l :: ls) =
        ((json_loads l).mapError (fun pos => Err.parseError l pos) >>= fun b =>
          parse_dicts ls >>= fun bs => .ok (b :: bs)) from rfl] at h
    cases hj : json_loads l with
    | error e => rw [hj] at h; simp [Except.mapError, error_bind] at h
    | ok v =>
      rw [hj] at h
      rw [show (Except.ok v).mapError (fun pos => Err.parseError l pos) = Except.ok v from rfl,
        ok_bind] at h
      cases hrest : parse_dicts ls with
      | error e => rw [hrest] at h; simp [error_bind] at h
      | ok rs' =>
        rw [hrest, ok_bind] at h
        cases h
        rcases List.mem_cons.mp hr with rfl | hm
        · exact json_loads_forceItem hj
        · exact ih rs' hrest r hm

theorem map_forceItem_id :
    ∀ (rs : List PyVal), (∀ r ∈ rs, forceItem r = r) → rs.map forceItem = rs := by
  intro rs
  induction rs with
  | nil => intro _; rfl
  | cons r rs ih =>
    intro h
    simp only [List.map_cons]
    rw [h r (List.mem_cons_self r rs), ih (fun x hx => h x (List.mem_cons_of_mem r hx))]

theorem map_forceItem_strs :
    ∀ (ls : List String), (ls.map PyVal.str).map forceItem = ls.map PyVal.str := by
  intro ls
  induction ls with
  | nil => rfl
  | cons s ls ih =>
    simp only [List.map_cons, ih]
    rfl

theorem mapExcept_map (f : β → Except ε γ) (g : α → β) :
    ∀ (l : List α), mapExcept f (l.map g) = mapExcept (fun a => f (g a)) l := by
  intro l
  induction l with
  | nil => rfl
  | cons a as ih =>
    show (f (g a) >>= fun b => mapExcept f (as.map g) >>= fun bs => .ok (b :: bs)) =
      (f (g a) >>= fun b => mapExcept (fun a => f (g a)) as >>= fun bs => .ok (b :: bs))
    rw [ih]

/-- C1: for every area string and every file-system state, the three endpoint
variants behave identically: the inline `get_people` of `step_1.py` and the
decomposed pipeline of `step_2.py` return literally the same result, and the
operator-chained pipeline of `step_3.py` succeeds with exactly the same list
of contacts (returned as the Python list of `Contact` objects that
`pyOfContacts` encodes) whenever `step_2` succeeds, and raises exactly the
same exception whenever `step_2` raises. -/
theorem C1_three_variants_equivalent (fs : FS) (area : String) :
    step1_get_people fs area = step2_get_people fs area ∧
    step3_get_people fs area = (step2_get_people fs area).map pyOfContacts := by
  constructor
  · rfl
  · unfold step3_get_people step2_get_people
    have h1 : create_filepath_c.ror (PyVal.str area) =
        Except.ok (PyVal.str (create_filepath area)) := rfl
    rw [h1, ok_bind]
    have h2 : (read_lines_c fs).ror (PyVal.str (create_filepath area)) =
        (read_lines fs (create_filepath area)).map (fun ls => PyVal.list (ls.map PyVal.str)) := rfl
    rw [h2]
    cases hr : read_lines fs (create_filepath area) with
    | error e => simp only [map_error, error_bind]
    | ok ls =>
      simp only [map_ok, ok_bind]
      have h3 : parse_dicts_c.ror (PyVal.list (ls.map PyVal.str)) =
          (parse_dicts ls).map PyVal.list := by
        have hA : parse_dicts_c.ror (PyVal.list (ls.map PyVal.str)) =
            (mapExcept
              (fun x =>
                match x with
                | PyVal.str line => (json_loads line).mapError (fun pos => Err.parseError line pos)
                | _ => .error (.typeError "the JSON object must be str"))
              ((ls.map PyVal.str).map forceItem)).map PyVal.list := rfl
        rw [hA, map_forceItem_strs, mapExcept_map]
        rfl
      rw [h3]
      cases hp : parse_dicts ls with
      | error e => simp only [map_error, error_bind]
      | ok rs =>
        simp only [map_ok, ok_bind]
        have h4 : convert_to_contacts_c.ror (PyVal.list rs) =
            (convert_to_contacts (rs.map forceItem)).map pyOfContacts := rfl
        rw [h4, map_forceItem_id rs (parse_dicts_ok_forceItem ls rs hp)]

theorem mapExcept_cons (f : α → Except ε β) (a : α) (as : List α) :
    mapExcept f (a :: as) =
      (f a >>= fun b => mapExcept f as >>= fun bs => .ok (b :: bs)) := rfl

theorem mapError_ok (a : α) (f : ε → ε') : (Except.ok a : Except ε α).mapError f = .ok a := rfl

theorem mapError_error (e : ε) (f : ε → ε') :
    (Except.error e : Except ε α).mapError f = .error (f e) := rfl

theorem lineContact_split :
    ∀ (ls : List String) (cs : List Contact), mapExcept lineContact ls = .ok cs →
      ∃ rs, parse_dicts ls = .ok rs ∧ convert_to_contacts rs = .ok cs := by
  intro ls
  induction ls with
  | nil =>
    intro cs h
    simp [mapExcept] at h
    subst h
    exact ⟨[], rfl, rfl⟩
  | cons l ls ih =>
    intro cs h
    rw [mapExcept_cons] at h
    cases hl : lineContact l with
    | error e => rw [hl] at h; simp [error_bind] at h
    | ok c =>
      rw [hl, ok_bind] at h
      cases hrest : mapExcept lineContact ls with
      | error e => rw [hrest] at h; simp [error_bind] at h
      | ok cs2 =>
        rw [hrest, ok_bind] at h
        cases h
        obtain ⟨rs, hrs, hconv⟩ := ih cs2 hrest
        unfold lineContact at hl
        cases hj : json_loads l with
        | error e => rw [hj] at hl; simp [mapError_error, error_bind] at hl
        | ok r =>
          rw [hj, mapError_ok, ok_bind] at hl
          refine ⟨r :: rs, ?_, ?_⟩
          · rw [show parse_dicts (l :: ls) =
                ((json_loads l).mapError (fun pos => Err.parseError l pos) >>= fun b =>
                  parse_dicts ls >>= fun bs => .ok (b :: bs)) from rfl,
              hj, mapError_ok, ok_bind, hrs, ok_bind]
          · rw [show convert_to_contacts (r :: rs) =
                (contact_of_pyval r >>= fun c2 =>
                  convert_to_contacts rs >>= fun cs3 => .ok (c2 :: cs3)) from rfl,
              hl, ok_bind, hconv, ok_bind]

/-- C2: for every area whose data file exists and whose non-blank lines each
parse and validate to a contact, the pipeline succeeds and returns exactly one
`Contact` per such line (so exactly N contacts when the file holds N
well-formed lines plus any number of blank lines), in file order: the k-th
contact comes from the k-th non-blank line, as the `Forall₂` conjunct
states. -/
theorem C2_wellformed_lines_give_contacts_in_order (fs : FS) (area content : String)
    (cs : List Contact)
    (hfs : fs (create_filepath area) = ReadResult.ok content)
    (hlines :
      mapExcept lineContact ((split_nl content).filter (fun l => !(isBlank l))) = Except.ok cs) :
    step2_get_people fs area = Except.ok cs ∧
    cs.length = ((split_nl content).filter (fun l => !(isBlank l))).length ∧
    List.Forall₂ (fun l c => lineContact l = Except.ok c)
      ((split_nl content).filter (fun l => !(isBlank l))) cs := by
  obtain ⟨rs, hrs, hconv⟩ := lineContact_split _ _ hlines
  refine ⟨?_, mapExcept_ok_length hlines, mapExcept_ok_forall₂ hlines⟩
  unfold step2_get_people
  rw [show read_lines fs (create_filepath area) =
      Except.ok ((split_nl content).filter (fun l => !(isBlank l))) from by
        unfold read_lines
        rw [hfs],
    ok_bind, hrs, ok_bind, hconv]

/-- Witness for C2 at a concrete two-record file with interspersed blank
lines. -/
theorem C2_witness :
    step2_get_people
        (fun _ =>
          ReadResult.ok
            "\x7b\"name\":\"Ann\",\"job\":\"Cook\"\x7d\n\n\x7b\"name\":\"Bo\",\"job\":\"Pilot\"\x7d\n")
        "ny" =
      Except.ok [⟨"Ann", "Cook"⟩, ⟨"Bo", "Pilot"⟩] :=
  (C2_wellformed_lines_give_contacts_in_order
    (fun _ =>
      ReadResult.ok
        "\x7b\"name\":\"Ann\",\"job\":\"Cook\"\x7d\n\n\x7b\"name\":\"Bo\",\"job\":\"Pilot\"\x7d\n")
    "ny"
    "\x7b\"name\":\"Ann\",\"job\":\"Cook\"\x7d\n\n\x7b\"name\":\"Bo\",\"job\":\"Pilot\"\x7d\n"
    [⟨"Ann", "Cook"⟩, ⟨"Bo", "Pilot"⟩] rfl rfl).1

/-- C3: on any readable content, `read_lines` returns exactly the non-blank
newline-separated segments: the result is the blank-filtered split (first
conjunct), every returned line is non-blank and the returned lines are a
subsequence of the split segments in their original order (second conjunct),
and inserting a blank segment anywhere in a segment list changes neither the
filtered lines nor (a fortiori) their count (third conjunct). -/
theorem C3_read_lines_filters_blank_lines (fs : FS) (path content : String)
    (hfs : fs path = ReadResult.ok content) :
    read_lines fs path = Except.ok ((split_nl content).filter (fun l => !(isBlank l))) ∧
    (∀ ls, read_lines fs path = Except.ok ls →
      (∀ l ∈ ls, isBlank l = false) ∧ ls.Sublist (split_nl content)) ∧
    (∀ (xs ys : List String) (b : String), isBlank b = true →
      (xs ++ b :: ys).filter (fun l => !(isBlank l)) =
        (xs ++ ys).filter (fun l => !(isBlank l))) := by
  have h1 : read_lines fs path = Except.ok ((split_nl content).filter (fun l => !(isBlank l))) := by
    unfold read_lines
    rw [hfs]
  refine ⟨h1, ?_, ?_⟩
  · intro ls hls
    rw [h1] at hls
    have hls2 : (split_nl content).filter (fun l => !(isBlank l)) = ls := by
      injection hls
    subst hls2
    constructor
    · intro l hl
      have hp := List.of_mem_filter hl
      simpa using hp
    · exact List.filter_sublist _
  · intro xs ys b hb
    simp [List.filter_append, List.filter_cons, hb]

/-- Witness for C3 at concrete content with a whitespace-only middle line. -/
theorem C3_witness :
    read_lines (fun _ => ReadResult.ok "a\n \t\nb") "p" = Except.ok ["a", "b"] := by
  have h := C3_read_lines_filters_blank_lines (fun _ => ReadResult.ok "a\n \t\nb") "p" "a\n \t\nb" rfl
  exact h.1.trans (by rfl)

/-- Counterexample to C4 as stated: the line `3` is syntactically valid JSON
that decodes to a non-object (non-mapping) value, yet `parse_dicts` does not
fail on it — `json.loads` happily returns the non-mapping value and the batch
succeeds.  The failure surfaces only later, in `convert_to_contacts`, as a
`TypeError` (not a `ParseError`). -/
theorem C4_counterexample :
    json_loads "3" = Except.ok (PyVal.int 3) ∧
    parse_dicts ["3"] = Except.ok [PyVal.int 3] ∧
    convert_to_contacts [PyVal.int 3] =
      Except.error (Err.typeError "argument after a double star must be a mapping") :=
  ⟨rfl, rfl, rfl⟩

/-- C4 (amended): the record-parsing stage fails with a `ParseError` carrying
the offending line and its character position precisely when some line is not
syntactically valid JSON: the first such line aborts the whole batch with no
partial result, wherever it sits in the sequence, and when every line parses
the stage succeeds — in particular a line decoding to a syntactically valid
non-object JSON value does not fail this stage. -/
theorem C4_invalid_json_aborts_batch :
    (∀ (pre : List String) (bad : String) (post : List String) (pos : Nat),
      (∀ l ∈ pre, ∃ r, json_loads l = Except.ok r) →
      json_loads bad = Except.error pos →
      parse_dicts (pre ++ bad :: post) = Except.error (Err.parseError bad pos)) ∧
    (∀ lines : List String, (∀ l ∈ lines, ∃ r, json_loads l = Except.ok r) →
      ∃ rs, parse_dicts lines = Except.ok rs) := by
  constructor
  · intro pre bad post pos hpre hbad
    unfold parse_dicts
    exact mapExcept_append_error post (by rw [hbad]; rfl) pre
      (fun l hl => (hpre l hl).elim (fun r hr => ⟨r, by rw [hr]; rfl⟩))
  · intro lines hall
    unfold parse_dicts
    exact mapExcept_all_ok lines
      (fun l hl => (hall l hl).elim (fun r hr => ⟨r, by rw [hr]; rfl⟩))

/-- Witness for the amended C4: a malformed middle line aborts the whole
batch with the decode error of exactly that line. -/
theorem C4_witness :
    parse_dicts ["\x7b\x7d", "not json", "3"] =
      Except.error (Err.parseError "not json" 1) :=
  C4_invalid_json_aborts_batch.1 ["\x7b\x7d"] "not json" ["3"] 1
    (by
      intro l hl
      simp at hl
      subst hl
      exact ⟨PyVal.dict [], rfl⟩)
    rfl

theorem contact_of_pyval_dict (kvs : List (PyVal × PyVal)) :
    contact_of_pyval (PyVal.dict kvs) =
      (if kvs.all (fun kv => kv.1.isStr) then
        match strField kvs "name", strField kvs "job" with
        | Option.some n, Option.some j => Except.ok ⟨n, j⟩
        | _, _ => Except.error (.validationError (PyVal.dict kvs) (badFieldsOf kvs))
      else Except.error (.typeError "keywords must be strings")) := rfl

theorem contact_of_pyval_ok {kvs : List (PyVal × PyVal)} {n j : String}
    (hkeys : kvs.all (fun kv => kv.1.isStr) = true)
    (hn : strField kvs "name" = Option.some n) (hj : strField kvs "job" = Option.some j) :
    contact_of_pyval (PyVal.dict kvs) = Except.ok ⟨n, j⟩ := by
  rw [contact_of_pyval_dict, if_pos hkeys, hn, hj]

theorem contact_of_pyval_validation {kvs : List (PyVal × PyVal)}
    (hkeys : kvs.all (fun kv => kv.1.isStr) = true)
    (hnone : strField kvs "name" = Option.none ∨ strField kvs "job" = Option.none) :
    contact_of_pyval (PyVal.dict kvs) =
      Except.error (.validationError (PyVal.dict kvs) (badFieldsOf kvs)) := by
  rw [contact_of_pyval_dict, if_pos hkeys]
  split
  · rename_i n j hn hj
    rcases hnone with h | h
    · rw [h] at hn
      exact Option.noConfusion hn
    · rw [h] at hj
      exact Option.noConfusion hj
  · rfl

theorem badFieldsOf_ne_nil {kvs : List (PyVal × PyVal)}
    (hnone : strField kvs "name" = Option.none ∨ strField kvs "job" = Option.none) :
    badFieldsOf kvs ≠ [] := by
  unfold badFieldsOf
  rcases hnone with h | h
  · cases hS : (strField kvs "job").isSome <;> simp [h, hS]
  · cases hS : (strField kvs "name").isSome <;> simp [h, hS]

/-- C5: conversion is all-or-nothing over mapping records: a record (a
string-keyed dict, the shape every parsed JSON object has) that lacks `name`,
lacks `job`, or holds a non-string value in either fails the whole batch with
a `ValidationError` carrying that record and the names of its bad fields (a
nonempty list), with no partial result; when every record has both fields as
strings the batch succeeds and yields one `Contact` per record carrying
exactly those two string fields; and a successful batch certifies that every
record converted. -/
theorem C5_validation_all_or_nothing :
    (∀ (pre post : List PyVal) (kvs : List (PyVal × PyVal)),
      (∀ r ∈ pre, ∃ c, contact_of_pyval r = Except.ok c) →
      kvs.all (fun kv => kv.1.isStr) = true →
      (strField kvs "name" = Option.none ∨ strField kvs "job" = Option.none) →
      convert_to_contacts (pre ++ PyVal.dict kvs :: post) =
        Except.error (.validationError (PyVal.dict kvs) (badFieldsOf kvs)) ∧
      badFieldsOf kvs ≠ []) ∧
    (∀ records : List PyVal,
      (∀ r ∈ records, ∃ kvs n j, r = PyVal.dict kvs ∧
        kvs.all (fun kv => kv.1.isStr) = true ∧
        strField kvs "name" = Option.some n ∧ strField kvs "job" = Option.some j) →
      ∃ cs, convert_to_contacts records = Except.ok cs ∧
        List.Forall₂
          (fun r c => ∃ kvs, r = PyVal.dict kvs ∧
            strField kvs "name" = Option.some c.name ∧
            strField kvs "job" = Option.some c.job)
          records cs) ∧
    (∀ (records : List PyVal) (cs : List Contact),
      convert_to_contacts records = Except.ok cs →
      ∀ r ∈ records, ∃ c, contact_of_pyval r = Except.ok c) := by
  refine ⟨?_, ?_, ?_⟩
  · intro pre post kvs hpre hkeys hnone
    refine ⟨?_, badFieldsOf_ne_nil hnone⟩
    unfold convert_to_contacts
    exact mapExcept_append_error post (contact_of_pyval_validation hkeys hnone) pre hpre
  · intro records
    induction records with
    | nil => exact fun _ => ⟨[], rfl, List.Forall₂.nil⟩
    | cons r rs ih =>
      intro hall
      obtain ⟨kvs, n, j, hr, hkeys, hn, hj⟩ := hall r (List.mem_cons_self r rs)
      subst hr
      obtain ⟨cs, hcs, hfa⟩ := ih (fun x hx => hall x (List.mem_cons_of_mem _ hx))
      refine ⟨⟨n, j⟩ :: cs, ?_, List.Forall₂.cons ⟨kvs, rfl, hn, hj⟩ hfa⟩
      rw [show convert_to_contacts (PyVal.dict kvs :: rs) =
          (contact_of_pyval (PyVal.dict kvs) >>= fun c =>
            convert_to_contacts rs >>= fun cs2 => .ok (c :: cs2)) from rfl,
        contact_of_pyval_ok hkeys hn hj, ok_bind, hcs, ok_bind]
  · intro records cs h
    exact mapExcept_ok_mem h

/-- Witness for C5: the spec's own example — a record with `name` but no
`job` fails the batch with a validation error naming exactly the field
`job`. -/
theorem C5_witness :
    convert_to_contacts [PyVal.dict [(PyVal.str "name", PyVal.str "Ann")]] =
      Except.error
        (Err.validationError (PyVal.dict [(PyVal.str "name", PyVal.str "Ann")]) ["job"]) := by
  have h := C5_validation_all_or_nothing.1 [] [] [(PyVal.str "name", PyVal.str "Ann")]
    (fun r hr => absurd hr (List.not_mem_nil r)) rfl (Or.inr rfl)
  exact h.1.trans (by rfl)

/-- C6: when the resolved data file is missing, every variant of the endpoint
raises `FileNotFoundError` for that path (so a nonexistent area never yields
any contact list, empty or otherwise), and any other read failure raises
`OSError`; neither is caught anywhere in the pipeline. -/
theorem C6_missing_file_raises (fs : FS) (area : String) :
    (fs (create_filepath area) = ReadResult.notFound →
      step1_get_people fs area = Except.error (Err.notFound (create_filepath area)) ∧
      step2_get_people fs area = Except.error (Err.notFound (create_filepath area)) ∧
      step3_get_people fs area = Except.error (Err.notFound (create_filepath area)) ∧
      ∀ cs : List Contact, step2_get_people fs area ≠ Except.ok cs) ∧
    (fs (create_filepath area) = ReadResult.ioFail →
      step2_get_people fs area = Except.error (Err.ioError (create_filepath area))) := by
  constructor
  · intro h
    have h2 : step2_get_people fs area = Except.error (Err.notFound (create_filepath area)) := by
      unfold step2_get_people
      rw [show read_lines fs (create_filepath area) =
          Except.error (Err.notFound (create_filepath area)) from by
            unfold read_lines
            rw [h],
        error_bind]
    have h3 : step3_get_people fs area = Except.error (Err.notFound (create_filepath area)) := by
      unfold step3_get_people
      rw [show create_filepath_c.ror (PyVal.str area) =
          Except.ok (PyVal.str (create_filepath area)) from rfl, ok_bind,
        show (read_lines_c fs).ror (PyVal.str (create_filepath area)) =
          (read_lines fs (create_filepath area)).map
            (fun ls => PyVal.list (ls.map PyVal.str)) from rfl,
        show read_lines fs (create_filepath area) =
          Except.error (Err.notFound (create_filepath area)) from by
            unfold read_lines
            rw [h],
        map_error, error_bind]
    refine ⟨(show step1_get_people fs area = step2_get_people fs area from rfl).trans h2,
      h2, h3, ?_⟩
    intro cs hcs
    rw [h2] at hcs
    exact Except.noConfusion hcs
  · intro h
    unfold step2_get_people
    rw [show read_lines fs (create_filepath area) =
        Except.error (Err.ioError (create_filepath area)) from by
          unfold read_lines
          rw [h],
      error_bind]

/-- Witness for C6 on an empty file system. -/
theorem C6_witness :
    step2_get_people (fun _ => ReadResult.notFound) "nowhere" =
      Except.error (Err.notFound "src/../data_files/nowhere.txt") :=
  ((C6_missing_file_raises (fun _ => ReadResult.notFound) "nowhere").1 rfl).2.1

/-- C7: chaining a wrapped unary function `f` with a callable `g` (another
`composable` is the special case `g = d.call`) yields a new pipeline whose
behaviour is exactly "apply f, then feed the result to g", with any exception
of `f` propagating unchanged; the original pipeline is left untouched and
still computes exactly `f`, so an already-built pipeline can be reused and
extended freely. -/
theorem C7_chaining_composes_and_preserves_original
    (f g : PyVal → Except Err PyVal) (x y : PyVal) :
    ((composable.mk f).orOp (PyOperand.fn g)).call x = (f x >>= g) ∧
    (composable.mk f).call y = f y :=
  ⟨rfl, rfl⟩

/-- C8: pipeline chaining is associative and agrees with the single
end-to-end left-to-right chain: for any three compatible stages and any
input, ((c₁|c₂)|c₃), (c₁|(c₂|c₃)) and the sequential run of the three stage
functions yield the same result. -/
theorem C8_chaining_associative (c₁ c₂ c₃ : composable) (x : PyVal) :
    ((c₁.orOp (PyOperand.fn c₂.call)).orOp (PyOperand.fn c₃.call)).call x =
      (c₁.orOp (PyOperand.fn (c₂.orOp (PyOperand.fn c₃.call)).call)).call x ∧
    ((c₁.orOp (PyOperand.fn c₂.call)).orOp (PyOperand.fn c₃.call)).call x =
      (c₁.func x >>= c₂.func >>= c₃.func) := by
  constructor
  · show (c₁.func x >>= c₂.call) >>= c₃.call =
      c₁.func x >>= fun value => (c₂.func value >>= c₃.call)
    cases hx : c₁.func x <;> rfl
  · rfl

/-- C9: piping a value into the head of a chain (`__ror__`) first forces
container elements: a list or a tuple is rebuilt as a list with every
zero-argument-callable element invoked and replaced by its result, a dict
gets the same treatment on its values; forcing leaves non-callable elements
untouched, and a non-container input is passed to the first stage
unchanged. -/
theorem C9_ror_forces_container_elements :
    (∀ (c : composable) (xs : List PyVal),
      c.ror (PyVal.list xs) = c.func (PyVal.list (xs.map forceItem)) ∧
      c.ror (PyVal.tuple xs) = c.func (PyVal.list (xs.map forceItem))) ∧
    (∀ (c : composable) (kvs : List (PyVal × PyVal)),
      c.ror (PyVal.dict kvs) =
        c.func (PyVal.dict (kvs.map (fun kv => (kv.1, forceItem kv.2))))) ∧
    (∀ f : Unit → PyVal, forceItem (PyVal.thunk f) = f ()) ∧
    (∀ v : PyVal, pyCallable v = false → forceItem v = v) ∧
    (∀ (c : composable) (v : PyVal), isPyContainer v = false → c.ror v = c.func v) := by
  refine ⟨fun c xs => ⟨rfl, rfl⟩, fun c kvs => rfl, fun f => rfl, ?_, ?_⟩
  · intro v hv
    cases v with
    | thunk f => simp [pyCallable] at hv
    | nonev => rfl
    | bool b => rfl
    | int n => rfl
    | str s => rfl
    | list xs => rfl
    | tuple xs => rfl
    | dict kvs => rfl
    | contact a b => rfl
  · intro c v hv
    cases v with
    | list xs => simp [isPyContainer] at hv
    | tuple xs => simp [isPyContainer] at hv
    | dict kvs => simp [isPyContainer] at hv
    | nonev => rfl
    | bool b => rfl
    | int n => rfl
    | str s => rfl
    | contact a b => rfl
    | thunk f => rfl

/-- Witness for C9: a list containing a thunk is forced element-wise before
reaching the stage, a non-callable element survives forcing, and a plain
string is passed through unchanged. -/
theorem C9_witness :
    composable.ror ⟨fun v => Except.ok v⟩
        (PyVal.list [PyVal.thunk (fun _ => PyVal.int 7), PyVal.str "a"]) =
      Except.ok (PyVal.list [PyVal.int 7, PyVal.str "a"]) ∧
    forceItem (PyVal.str "b") = PyVal.str "b" ∧
    composable.ror ⟨fun v => Except.ok v⟩ (PyVal.str "a") = Except.ok (PyVal.str "a") := by
  refine ⟨?_, ?_, ?_⟩
  · exact ((C9_ror_forces_container_elements.1 ⟨fun v => Except.ok v⟩
      [PyVal.thunk (fun _ => PyVal.int 7), PyVal.str "a"]).1).trans (by rfl)
  · exact C9_ror_forces_container_elements.2.2.2.1 (PyVal.str "b") rfl
  · exact C9_ror_forces_container_elements.2.2.2.2 ⟨fun v => Except.ok v⟩ (PyVal.str "a") rfl

/-- C10: with a non-callable right operand `other`, `__or__` builds a
constant pipeline: applied to any input `x`, it ignores `x` and returns
`f(other)`; and for dictionaries piped into a chain, only the values are
forced — the keys, callable or not, are passed through unchanged (the key
list of the forced dict equals the original key list). -/
theorem C10_noncallable_operand_gives_constant_pipeline :
    (∀ (f : PyVal → Except Err PyVal) (other : PyVal) (x : PyVal),
      pyCallable other = false →
      ((composable.mk f).orOp (PyOperand.val other)).call x = f other) ∧
    (∀ (c : composable) (kvs : List (PyVal × PyVal)),
      c.ror (PyVal.dict kvs) =
        c.func (PyVal.dict (kvs.map (fun kv => (kv.1, forceItem kv.2)))) ∧
      (kvs.map (fun kv => (kv.1, forceItem kv.2))).map Prod.fst = kvs.map Prod.fst) := by
  refine ⟨fun f other x _ => rfl, fun c kvs => ⟨rfl, ?_⟩⟩
  rw [List.map_map]
  rfl

/-- Witness for C10: `composable(f) | 7` applied to an unrelated input
returns `f(7)`, and a dict with a callable key and a callable value keeps the
key unforced while the value is forced. -/
theorem C10_witness :
    ((composable.mk (fun v => Except.ok (PyVal.list [v]))).orOp
        (PyOperand.val (PyVal.int 7))).call (PyVal.str "ignored") =
      Except.ok (PyVal.list [PyVal.int 7]) ∧
    composable.ror ⟨fun v => Except.ok v⟩
        (PyVal.dict [(PyVal.str "k", PyVal.thunk (fun _ => PyVal.int 3))]) =
      Except.ok (PyVal.dict [(PyVal.str "k", PyVal.int 3)]) := by
  constructor
  · exact C10_noncallable_operand_gives_constant_pipeline.1
      (fun v => Except.ok (PyVal.list [v])) (PyVal.int 7) (PyVal.str "ignored") rfl
  · exact ((C10_noncallable_operand_gives_constant_pipeline.2 ⟨fun v => Except.ok v⟩
      [(PyVal.str "k", PyVal.thunk (fun _ => PyVal.int 3))]).1).trans (by rfl)
